import Mathlib

/-!
Verification development for the session lifecycle and dev-server supervisor
of the z-squad repository (`session/instance.go`), as a shallow embedding.

External collaborators (tmux sessions, git worktrees, the clock) are modelled
by explicit environments that fix the result of each fallible external call;
each embedded operation returns its new state together with the returned
error (`Option String`, `none` = nil error) and a trace of the externally
visible steps it attempted.
-/

set_option maxHeartbeats 1000000

namespace ZSquad

/-- Substring relation on strings: `sub` occurs contiguously in `msg`. -/
def occursIn (sub msg : String) : Prop := ∃ a b, msg = a ++ sub ++ b

/-- Instance status (`Status` in session/instance.go). -/
inductive Status where
  | Running
  | Ready
  | Loading
  | Paused
deriving DecidableEq, Repr

/-- Dev-server status (`DevServerStatus` in session/instance.go). -/
inductive DevServerStatus where
  | DevServerStopped
  | DevServerBuilding
  | DevServerStarting
  | DevServerRunning
  | DevServerCrashed
deriving DecidableEq, Repr

/-- The part of an `Instance`'s state relevant to the lifecycle operations:
its title, status, the `started` flag, and which of the three owned
resources (`DevServer`, `tmuxSession`, `gitWorktree`) are non-nil. -/
structure InstanceState where
  title : String
  status : Status
  started : Bool
  hasDevServer : Bool
  hasTmux : Bool
  hasWorktree : Bool
deriving DecidableEq, Repr

/-- `combineErrors` (session/instance.go): zero errors → nil; one error →
returned unchanged; two or more → one message built by appending each
error to a common header. Errors are represented by their messages. -/
def combineErrors (errs : List String) : Option String :=
  match errs with
  | [] => none
  | [e] => some e
  | _ =>
    some (errs.foldl (fun acc e => acc ++ ("\n  - " ++ e))
      "multiple cleanup errors occurred:")

/-- The three cleanup steps `Instance.Kill` can attempt. -/
inductive KillStep where
  | stopDev
  | closeTmux
  | cleanupWorktree
deriving DecidableEq, Repr

/-- Results of the external calls `Kill` makes: `DevServer.Stop()`,
`tmuxSession.Close()`, `gitWorktree.Cleanup()` (`some e` = that call
failed with message `e`). -/
structure KillEnv where
  devStop : Option String
  tmuxClose : Option String
  wtCleanup : Option String
deriving DecidableEq, Repr

/-- `Instance.Kill` (session/instance.go): no-op returning nil when not
started; otherwise attempts dev-server stop, tmux close and worktree
cleanup in order, each guarded only by the presence of that resource,
collecting every failure and combining them with `combineErrors`.
Returns the error and the list of attempted steps. -/
def InstanceState.Kill (i : InstanceState) (env : KillEnv) :
    Option String × List KillStep :=
  if !i.started then
    (none, [])
  else
    let devErrs := if i.hasDevServer then
        (match env.devStop with
         | some e => ["failed to stop dev server: " ++ e]
         | none => [])
      else []
    let devSteps := if i.hasDevServer then [KillStep.stopDev] else []
    let tmuxErrs := if i.hasTmux then
        (match env.tmuxClose with
         | some e => ["failed to close tmux session: " ++ e]
         | none => [])
      else []
    let tmuxSteps := if i.hasTmux then [KillStep.closeTmux] else []
    let wtErrs := if i.hasWorktree then
        (match env.wtCleanup with
         | some e => ["failed to cleanup git worktree: " ++ e]
         | none => [])
      else []
    let wtSteps := if i.hasWorktree then [KillStep.cleanupWorktree] else []
    (combineErrors (devErrs ++ tmuxErrs ++ wtErrs),
     devSteps ++ tmuxSteps ++ wtSteps)

/-- `DevServer.appendOutput` (session/instance.go): append one line, then
keep only the last 100 lines. -/
def appendOutput (output : List String) (line : String) : List String :=
  let out := output ++ [line]
  if out.length > 100 then out.drop (out.length - 100) else out

/-- Results of the external calls `Instance.Start` makes:
`git.NewGitWorktree`, `gitWorktree.Setup()`, `tmuxSession.Restore()`,
`tmuxSession.Start(dir)`, and the inline `gitWorktree.Cleanup()` performed
when the tmux start fails; plus the environment used by the rollback
`Kill` in the deferred error handler. -/
structure StartEnv where
  newWorktree : Option String
  wtSetup : Option String
  tmuxRestore : Option String
  tmuxStart : Option String
  wtCleanupInline : Option String
  killEnv : KillEnv
deriving DecidableEq, Repr

/-- Result of `Instance.Start`: the instance state afterwards, the returned
error, whether the deferred rollback invoked `Kill`, and what that `Kill`
returned when invoked. -/
structure StartResult where
  state : InstanceState
  err : Option String
  killInvoked : Bool
  killResult : Option String
deriving DecidableEq, Repr

/-- The part of `Instance.Start` that runs under the deferred error handler
(everything after the handler is installed): session restore for non-first
time setup, or worktree setup followed by tmux session start for first-time
setup; on any failure the deferred handler calls `Kill` and appends a
failing rollback's error to the propagated one. -/
def startBody (i : InstanceState) (firstTimeSetup : Bool) (env : StartEnv) :
    StartResult :=
  let setupErr : Option String :=
    if !firstTimeSetup then
      match env.tmuxRestore with
      | some e => some ("failed to restore existing session: " ++ e)
      | none => none
    else
      match env.wtSetup with
      | some e => some ("failed to setup git worktree: " ++ e)
      | none =>
        match env.tmuxStart with
        | some e =>
          let e2 := match env.wtCleanupInline with
            | some ce => e ++ " (cleanup error: " ++ ce ++ ")"
            | none => e
          some ("failed to start new session: " ++ e2)
        | none => none
  match setupErr with
  | none =>
    { state := { i with status := Status.Running, started := true },
      err := none, killInvoked := false, killResult := none }
  | some se =>
    let k := i.Kill env.killEnv
    let finalErr := match k.1 with
      | some ke => se ++ " (cleanup error: " ++ ke ++ ")"
      | none => se
    { state := i, err := some finalErr, killInvoked := true,
      killResult := k.1 }

/-- `Instance.Start` (session/instance.go): empty-title validation, tmux
session object acquisition, then (for first-time setup) worktree creation
-- whose failure returns before the deferred rollback handler is installed
-- followed by the body under the deferred handler. On success the status
is `Running` and `started` is set. -/
def InstanceState.Start (i : InstanceState) (firstTimeSetup : Bool)
    (env : StartEnv) : StartResult :=
  if i.title = "" then
    { state := i, err := some "instance title cannot be empty",
      killInvoked := false, killResult := none }
  else
    let i1 := { i with hasTmux := true }
    if firstTimeSetup then
      match env.newWorktree with
      | some e =>
        { state := i1, err := some ("failed to create git worktree: " ++ e),
          killInvoked := false, killResult := none }
      | none => startBody { i1 with hasWorktree := true } firstTimeSetup env
    else
      startBody i1 firstTimeSetup env

/-- Results of the external calls `Instance.Pause` makes:
`gitWorktree.IsDirty()` (value or failure), `gitWorktree.CommitChanges`,
`tmuxSession.DetachSafely()`, and the formatted current time used in the
snapshot commit message. -/
structure PauseEnv where
  isDirty : Except String Bool
  commit : Option String
  detach : Option String
  now : String
deriving Repr

/-- Result of `Instance.Pause`: the state afterwards, the returned error,
the messages of the commits it created, and whether the detach step was
attempted. -/
structure PauseResult where
  state : InstanceState
  err : Option String
  commits : List String
  detachAttempted : Bool
deriving DecidableEq, Repr

/-- The tail of `Instance.Pause` after the dirty-check/commit step:
detach (failure collected, processing continues), then return the combined
collected errors if any, else set status `Paused`. -/
def pauseAfterCommit (i : InstanceState) (env : PauseEnv)
    (errs : List String) (commits : List String) : PauseResult :=
  let errs2 := match env.detach with
    | some e => errs ++ ["failed to detach tmux session: " ++ e]
    | none => errs
  match combineErrors errs2 with
  | some err =>
    { state := i, err := some err, commits := commits,
      detachAttempted := true }
  | none =>
    { state := { i with status := Status.Paused }, err := none,
      commits := commits, detachAttempted := true }

/-- `Instance.Pause` (session/instance.go): guards on `started` and on not
already being paused; checks dirtiness (a check failure is collected and
processing continues), commits a snapshot when dirty (a commit failure
returns early), detaches, and transitions to `Paused` only via
`pauseAfterCommit`. -/
def InstanceState.Pause (i : InstanceState) (env : PauseEnv) : PauseResult :=
  if !i.started then
    { state := i, err := some "cannot pause instance that has not been started",
      commits := [], detachAttempted := false }
  else if i.status = Status.Paused then
    { state := i, err := some "instance is already paused",
      commits := [], detachAttempted := false }
  else
    match env.isDirty with
    | Except.error e =>
      pauseAfterCommit i env ["failed to check if worktree is dirty: " ++ e] []
    | Except.ok false => pauseAfterCommit i env [] []
    | Except.ok true =>
      let commitMsg :=
        "[claudesquad] update from '" ++ i.title ++ "' on " ++ env.now
          ++ " (paused)"
      match env.commit with
      | some e =>
        { state := i,
          err := combineErrors ["failed to commit changes: " ++ e],
          commits := [], detachAttempted := false }
      | none => pauseAfterCommit i env [] [commitMsg]

/-- Result of the `os.Stat` call on the worktree path in `Resume`. -/
inductive StatResult where
  | present
  | notExist
  | statError (e : String)
deriving DecidableEq, Repr

/-- Results of the external calls `Instance.Resume` makes. -/
structure ResumeEnv where
  branchCheckedOut : Except String Bool
  stat : StatResult
  wtSetup : Option String
  sessionStillExists : Bool
  tmuxRestore : Option String
  tmuxStart : Option String
  wtCleanup : Option String
deriving Repr

/-- The mutating steps `Resume` can attempt on its resources. -/
inductive ResumeStep where
  | wtSetup
  | tmuxRestore
  | tmuxStart
  | wtCleanup
deriving DecidableEq, Repr

/-- Result of `Instance.Resume`: state afterwards, returned error, and the
mutating steps attempted. -/
structure ResumeResult where
  state : InstanceState
  err : Option String
  steps : List ResumeStep
deriving DecidableEq, Repr

/-- The fresh-session branch of `Resume`: `tmuxSession.Start(worktree)`;
on failure, the worktree is cleaned up and a failing cleanup's error is
appended. -/
def resumeStartFresh (i : InstanceState) (env : ResumeEnv)
    (steps : List ResumeStep) : ResumeResult :=
  match env.tmuxStart with
  | none =>
    { state := { i with status := Status.Running }, err := none,
      steps := steps ++ [ResumeStep.tmuxStart] }
  | some e =>
    let e2 := match env.wtCleanup with
      | some ce => e ++ " (cleanup error: " ++ ce ++ ")"
      | none => e
    { state := i, err := some ("failed to start new session: " ++ e2),
      steps := steps ++ [ResumeStep.tmuxStart, ResumeStep.wtCleanup] }

/-- The session-reconnection part of `Resume`: restore the tmux session if
it still exists (falling back to a fresh start on restore failure), else
start a fresh one. -/
def resumeTmux (i : InstanceState) (env : ResumeEnv)
    (steps : List ResumeStep) : ResumeResult :=
  if env.sessionStillExists then
    match env.tmuxRestore with
    | none =>
      { state := { i with status := Status.Running }, err := none,
        steps := steps ++ [ResumeStep.tmuxRestore] }
    | some _ => resumeStartFresh i env (steps ++ [ResumeStep.tmuxRestore])
  else
    resumeStartFresh i env steps

/-- `Instance.Resume` (session/instance.go): guards on `started` and
`Paused`; fails with no mutation when the branch is checked out elsewhere
(or that check fails); recreates the worktree only when `os.Stat` reports
it missing; then reconnects or restarts the tmux session and sets status
`Running`. -/
def InstanceState.Resume (i : InstanceState) (env : ResumeEnv) :
    ResumeResult :=
  if !i.started then
    { state := i, err := some "cannot resume instance that has not been started",
      steps := [] }
  else if i.status ≠ Status.Paused then
    { state := i, err := some "can only resume paused instances", steps := [] }
  else
    match env.branchCheckedOut with
    | Except.error e =>
      { state := i,
        err := some ("failed to check if branch is checked out: " ++ e),
        steps := [] }
    | Except.ok true =>
      { state := i,
        err := some "cannot resume: branch is checked out, please switch to a different branch",
        steps := [] }
    | Except.ok false =>
      match env.stat with
      | StatResult.statError e =>
        { state := i,
          err := some ("failed to check if worktree exists: " ++ e),
          steps := [] }
      | StatResult.notExist =>
        match env.wtSetup with
        | some e =>
          { state := i, err := some ("failed to setup git worktree: " ++ e),
            steps := [ResumeStep.wtSetup] }
        | none => resumeTmux i env [ResumeStep.wtSetup]
      | StatResult.present => resumeTmux i env []

/-- The part of a `DevServer`'s state relevant to `Start`/`Stop`: its
status, the configured build and dev commands, whether its tmux session
reference is non-nil, and its output buffer. -/
structure DevServerState where
  status : DevServerStatus
  buildCommand : String
  devCommand : String
  hasSession : Bool
  output : List String
deriving DecidableEq, Repr

/-- `DevServer.IsRunning` (session/instance.go): status is `Running` or
`Starting`. -/
def DevServerState.IsRunning (d : DevServerState) : Bool :=
  d.status = DevServerStatus.DevServerRunning
    || d.status = DevServerStatus.DevServerStarting

/-- Results of the external calls `DevServer.Start` makes: the build
command's combined output and failure, the timestamp string, and the
result of `startDevServer` (tmux process launch + wait). -/
structure DevStartEnv where
  buildOutput : String
  buildFailure : Option String
  now : String
  startFailure : Option String
deriving DecidableEq, Repr

/-- Result of `DevServer.Start`: state afterwards, returned error, whether
a dev-server process launch was attempted (`startDevServer` reached), and
whether the build command ran. -/
structure DevStartResult where
  state : DevServerState
  err : Option String
  spawned : Bool
  buildRan : Bool
deriving DecidableEq, Repr

/-- The tail of `DevServer.Start` after the build step: set `Starting`,
run `startDevServer` (on failure revert to `Stopped`), on success set
`Running` with a live session and a start line appended to the output. -/
def devStartAfterBuild (d : DevServerState) (env : DevStartEnv)
    (buildRan : Bool) : DevStartResult :=
  let d2 := { d with status := DevServerStatus.DevServerStarting }
  match env.startFailure with
  | some e =>
    { state := { d2 with status := DevServerStatus.DevServerStopped },
      err := some ("failed to start dev server: " ++ e),
      spawned := true, buildRan := buildRan }
  | none =>
    { state :=
        { d2 with
          status := DevServerStatus.DevServerRunning,
          hasSession := true,
          output := appendOutput d2.output
            ("[" ++ env.now ++ "] Starting dev server: " ++ d.devCommand) },
      err := none, spawned := true, buildRan := buildRan }

/-- `DevServer.Start` (session/instance.go): rejected when `IsRunning`;
rejected when no dev command is configured; sets `Building`, runs the
build command when configured (`runBuild` appends its output to the
buffer; a failure reverts to `Stopped`), then hands off to
`devStartAfterBuild`. -/
def DevServerState.Start (d : DevServerState) (env : DevStartEnv) :
    DevStartResult :=
  if d.IsRunning then
    { state := d, err := some "dev server is already running",
      spawned := false, buildRan := false }
  else if d.devCommand = "" then
    { state := d, err := some "dev command not configured",
      spawned := false, buildRan := false }
  else
    let d1 := { d with status := DevServerStatus.DevServerBuilding }
    if d.buildCommand ≠ "" then
      match env.buildFailure with
      | some e =>
        { state :=
            { d1 with
              status := DevServerStatus.DevServerStopped,
              output := appendOutput d1.output env.buildOutput },
          err := some ("build failed: " ++ ("build command failed: " ++ e)),
          spawned := false, buildRan := true }
      | none =>
        devStartAfterBuild
          { d1 with output := appendOutput d1.output env.buildOutput } env true
    else
      devStartAfterBuild d1 env false

/-- Results of the external calls `DevServer.Stop` makes; `Stop` ignores
the results of `SendKeys` and `Close`. -/
structure DevStopEnv where
  sendKeysFailure : Option String
  sessionStillExists : Bool
  closeFailure : Option String
deriving DecidableEq, Repr

/-- Result of `DevServer.Stop`. -/
structure DevStopResult where
  state : DevServerState
  err : Option String
  interruptSent : Bool
  closeAttempted : Bool
deriving DecidableEq, Repr

/-- `DevServer.Stop` (session/instance.go): a nil session is treated as
already stopped; otherwise sends an interrupt (result ignored), waits,
force-closes the session if it still exists (result ignored), and
unconditionally clears the session reference and sets `Stopped`,
returning nil. -/
def DevServerState.Stop (d : DevServerState) (env : DevStopEnv) :
    DevStopResult :=
  if !d.hasSession then
    { state := { d with status := DevServerStatus.DevServerStopped },
      err := none, interruptSent := false, closeAttempted := false }
  else
    { state :=
        { d with hasSession := false,
                 status := DevServerStatus.DevServerStopped },
      err := none, interruptSent := true,
      closeAttempted := env.sessionStillExists }

/-- Result of the session-creation wait loop in `startDevServer`. -/
structure BackoffResult where
  timedOut : Bool
  ptmxClosed : Bool
  delays : List Nat
deriving DecidableEq, Repr

/-- The sleep-duration update in `startDevServer`'s wait loop: double the
duration while it is below 50ms. Durations are in milliseconds. -/
def nextSleep (s : Nat) : Nat := if s < 50 then s * 2 else s

/-- The wait loop in `startDevServer` (session/instance.go): poll
`DoesSessionExist` (the `k`-th check given by `sess k`); if the 2s timeout
has elapsed, close the pty handle and fail; otherwise sleep the current
duration and double it below the 50ms threshold. The pty handle is closed
after the loop on the success path as well. `elapsed` accumulates slept
milliseconds; the recorded `delays` are the sleeps performed. -/
def waitForSession (sess : Nat → Bool) (idx elapsed sleep : Nat)
    (hs : 0 < sleep) : BackoffResult :=
  if sess idx then
    { timedOut := false, ptmxClosed := true, delays := [] }
  else if 2000 ≤ elapsed then
    { timedOut := true, ptmxClosed := true, delays := [] }
  else
    let r := waitForSession sess (idx + 1) (elapsed + sleep) (nextSleep sleep)
      (by unfold nextSleep; split <;> omega)
    { r with delays := sleep :: r.delays }
termination_by 2000 - elapsed
decreasing_by omega

/-- The wait in `startDevServer` as invoked by the source: first sleep
duration 5ms, elapsed time 0. -/
def startDevServerWait (sess : Nat → Bool) : BackoffResult :=
  waitForSession sess 0 0 5 (by omega)

/-- Invariant of the wait loop, relative to the elapsed time and sleep
duration at entry: the pty handle is closed on every exit path; the first
recorded delay is the entry sleep; every delay is one of 5, 10, 20, 40,
80; consecutive delays follow the double-below-50 rule; the total slept
time stays below the timeout plus one final delay; and when the session
never appears the loop reports a timeout reached at 2000ms of sleeping. -/
def backoffInv (sess : Nat → Bool) (elapsed sleep : Nat)
    (r : BackoffResult) : Prop :=
  r.ptmxClosed = true ∧
  (r.delays = [] ∨ r.delays.head? = some sleep) ∧
  (∀ d ∈ r.delays, d ∈ ([5, 10, 20, 40, 80] : List Nat)) ∧
  List.Chain' (fun a b => b = if a < 50 then a * 2 else a) r.delays ∧
  (elapsed + r.delays.sum ≤ 2079 ∨ r.delays = []) ∧
  ((∀ k, sess k = false) → r.timedOut = true ∧ 2000 ≤ elapsed + r.delays.sum)

theorem occursIn_intro (a sub b : String) : occursIn sub (a ++ (sub ++ b)) :=
  ⟨a, b, (String.append_assoc a sub b).symm⟩

theorem occursIn_self (sub : String) : occursIn sub sub :=
  ⟨"", "", by rw [String.append_empty, String.empty_append]⟩

theorem occursIn_suffix (a sub : String) : occursIn sub (a ++ sub) :=
  ⟨a, "", (String.append_empty _).symm⟩

theorem occursIn_append_right {sub m : String} (h : occursIn sub m)
    (t : String) : occursIn sub (m ++ t) := by
  obtain ⟨x, y, rfl⟩ := h
  exact ⟨x, y ++ t, String.append_assoc (x ++ sub) y t⟩

theorem occursIn_append_left (t : String) {sub m : String}
    (h : occursIn sub m) : occursIn sub (t ++ m) := by
  obtain ⟨x, y, rfl⟩ := h
  exact ⟨t ++ x, y, by simp only [String.append_assoc]⟩

theorem occursIn_right_component {p e m : String}
    (h : occursIn (p ++ e) m) : occursIn e m := by
  obtain ⟨x, y, rfl⟩ := h
  exact ⟨x ++ p, y, by simp only [String.append_assoc]⟩

/-- The error-message accumulation step used by `combineErrors`. -/
theorem foldl_errs_extend :
    ∀ (xs : List String) (acc : String) {sub : String}, occursIn sub acc →
      occursIn sub
        (xs.foldl (fun a e => a ++ ("\n  - " ++ e)) acc) := by
  intro xs
  induction xs with
  | nil => intro acc sub h; simpa using h
  | cons x xs ih =>
    intro acc sub h
    rw [List.foldl_cons]
    exact ih _ (occursIn_append_right h _)

theorem foldl_errs_mem :
    ∀ (xs : List String) (acc e : String), e ∈ xs →
      occursIn e (xs.foldl (fun a e => a ++ ("\n  - " ++ e)) acc) := by
  intro xs
  induction xs with
  | nil => intro acc e h; simp at h
  | cons x xs ih =>
    intro acc e h
    rw [List.foldl_cons]
    rcases List.mem_cons.mp h with h | h
    · subst h
      exact foldl_errs_extend _ _ (occursIn_append_left acc (occursIn_suffix "\n  - " e))
    · exact ih _ _ h

theorem foldl_errs_header :
    ∀ (xs : List String) (acc : String),
      ∃ rest, xs.foldl (fun a e => a ++ ("\n  - " ++ e)) acc = acc ++ rest := by
  intro xs
  induction xs with
  | nil => intro acc; exact ⟨"", by simp [String.append_empty]⟩
  | cons x xs ih =>
    intro acc
    obtain ⟨r, hr⟩ := ih (acc ++ ("\n  - " ++ x))
    exact ⟨("\n  - " ++ x) ++ r, by
      rw [List.foldl_cons, hr, String.append_assoc]⟩

/-- `combineErrors` on two or more errors: one message, led by the common
header, containing every constituent message. -/
theorem combineErrors_two (errs : List String) (h : 2 ≤ errs.length) :
    ∃ msg, combineErrors errs = some msg ∧
      (∃ rest, msg = "multiple cleanup errors occurred:" ++ rest) ∧
      ∀ e ∈ errs, occursIn e msg := by
  rcases errs with _ | ⟨e1, _ | ⟨e2, t⟩⟩
  · simp at h
  · simp at h
  · exact ⟨_, rfl, foldl_errs_header _ _, fun e he => foldl_errs_mem _ _ _ he⟩

/-- C5: `combineErrors` returns no error for the empty list, the sole error
unchanged for a one-element list, and for two or more errors a single
error whose message starts with the common header and contains every
constituent message. -/
theorem combineErrors_spec :
    combineErrors [] = none ∧
    (∀ e, combineErrors [e] = some e) ∧
    (∀ errs, 2 ≤ errs.length →
      ∃ msg, combineErrors errs = some msg ∧
        (∃ rest, msg = "multiple cleanup errors occurred:" ++ rest) ∧
        ∀ e ∈ errs, occursIn e msg) :=
  ⟨rfl, fun _ => rfl, combineErrors_two⟩

theorem combineErrors_spec_witness :
    2 ≤ (["ea", "eb"] : List String).length ∧
    ∃ msg, combineErrors ["ea", "eb"] = some msg ∧
      (∃ rest, msg = "multiple cleanup errors occurred:" ++ rest) ∧
      ∀ e ∈ (["ea", "eb"] : List String), occursIn e msg :=
  ⟨by decide, combineErrors_spec.2.2 ["ea", "eb"] (by decide)⟩

theorem appendOutput_eq_rtake (b : List String) (l : String) :
    appendOutput b l = (b ++ [l]).rtake 100 := by
  simp only [appendOutput, List.rtake, List.length_append, List.length_singleton]
  split
  · rfl
  · rename_i h
    have h0 : b.length + 1 - 100 = 0 := by omega
    rw [h0, List.drop_zero]

theorem rtake_append_rtake {α : Type} (n : Nat) (l m : List α) :
    ((l.rtake n) ++ m).rtake n = (l ++ m).rtake n := by
  rw [List.rtake_eq_reverse_take_reverse, List.rtake_eq_reverse_take_reverse,
    List.rtake_eq_reverse_take_reverse]
  rw [List.reverse_append, List.reverse_append, List.reverse_reverse]
  congr 1
  rw [List.take_append_eq_append_take, List.take_append_eq_append_take,
    List.take_take, Nat.min_eq_left (Nat.sub_le _ _)]

theorem appendOutput_length_le (b : List String) (l : String) :
    (appendOutput b l).length ≤ 100 := by
  rw [appendOutput_eq_rtake, List.rtake, List.length_drop]
  omega

theorem foldl_appendOutput (lines : List String) :
    ∀ acc : List String, acc.length ≤ 100 →
      lines.foldl appendOutput acc = (acc ++ lines).rtake 100 := by
  induction lines with
  | nil =>
    intro acc hacc
    rw [List.foldl_nil, List.append_nil, List.rtake]
    have h0 : acc.length - 100 = 0 := by omega
    rw [h0, List.drop_zero]
  | cons x xs ih =>
    intro acc hacc
    rw [List.foldl_cons, ih (appendOutput acc x) (appendOutput_length_le acc x)]
    rw [appendOutput_eq_rtake, rtake_append_rtake, List.append_assoc,
      List.singleton_append]

/-- C8: folding `appendOutput` over any sequence of lines starting from the
empty buffer leaves at most 100 lines, and exactly the most recently
appended lines in order (the length-100 tail of the appended sequence). -/
theorem appendOutput_ring_spec (lines : List String) :
    (lines.foldl appendOutput []).length ≤ 100 ∧
    lines.foldl appendOutput [] = lines.rtake 100 := by
  have h := foldl_appendOutput lines [] (by simp)
  rw [List.nil_append] at h
  refine ⟨?_, h⟩
  rw [h, List.rtake, List.length_drop]
  omega

/-- C10: `DevServer.Stop` never returns an error: in every state it returns
nil, leaves the status `Stopped`, and leaves the session reference
cleared, whatever the underlying session calls do. -/
theorem devStop_spec (d : DevServerState) (env : DevStopEnv) :
    (d.Stop env).err = none ∧
    (d.Stop env).state.status = DevServerStatus.DevServerStopped ∧
    (d.Stop env).state.hasSession = false := by
  cases hd : d.hasSession <;> simp [DevServerState.Stop, hd]

/-- C1: `Kill` on a non-started instance is a no-op returning no error; on a
started instance the attempted steps are the same whatever the outcomes of
the external calls (every remaining step runs regardless of earlier
failures), the worktree cleanup is always among them, and when both the
dev-server stop and the session close fail, both failures appear in the
returned error. -/
theorem kill_spec (i : InstanceState) (env : KillEnv) :
    (i.started = false → i.Kill env = (none, [])) ∧
    (i.started = true →
      (∀ env' : KillEnv, (i.Kill env).2 = (i.Kill env').2) ∧
      (i.hasDevServer = true → i.hasTmux = true → i.hasWorktree = true →
        (i.Kill env).2 =
          [KillStep.stopDev, KillStep.closeTmux, KillStep.cleanupWorktree]) ∧
      (i.hasWorktree = true → KillStep.cleanupWorktree ∈ (i.Kill env).2) ∧
      (i.hasDevServer = true → i.hasTmux = true →
        ∀ e1 e2, env.devStop = some e1 → env.tmuxClose = some e2 →
          ∃ msg, (i.Kill env).1 = some msg ∧
            occursIn e1 msg ∧ occursIn e2 msg)) := by
  constructor
  · intro h
    simp [InstanceState.Kill, h]
  · intro h
    refine ⟨?_, ?_, ?_, ?_⟩
    · intro env'
      simp [InstanceState.Kill, h]
    · intro hd ht hwt
      simp [InstanceState.Kill, h, hd, ht, hwt]
    · intro hwt
      rcases hd : i.hasDevServer <;> rcases ht : i.hasTmux <;>
        simp [InstanceState.Kill, h, hwt, hd, ht]
    · intro hdev htmux e1 e2 h1 h2
      have hred : (i.Kill env).1 =
          combineErrors (["failed to stop dev server: " ++ e1] ++
            ["failed to close tmux session: " ++ e2] ++
            (if i.hasWorktree then
              (match env.wtCleanup with
               | some e => ["failed to cleanup git worktree: " ++ e]
               | none => [])
             else [])) := by
        simp [InstanceState.Kill, h, hdev, htmux, h1, h2]
      obtain ⟨msg, hm, _, hmem⟩ := combineErrors_two
        (["failed to stop dev server: " ++ e1] ++
          ["failed to close tmux session: " ++ e2] ++
          (if i.hasWorktree then
            (match env.wtCleanup with
             | some e => ["failed to cleanup git worktree: " ++ e]
             | none => [])
           else []))
        (by simp only [List.length_append, List.length_singleton]; omega)
      refine ⟨msg, hred.trans hm, ?_, ?_⟩
      · exact occursIn_right_component
          (hmem ("failed to stop dev server: " ++ e1) (by simp))
      · exact occursIn_right_component
          (hmem ("failed to close tmux session: " ++ e2) (by simp))

theorem kill_spec_witness :
    (InstanceState.mk "t1" Status.Running true true true true).started = true ∧
    (InstanceState.mk "t1" Status.Running true true true true).hasDevServer = true ∧
    (InstanceState.mk "t1" Status.Running true true true true).hasTmux = true ∧
    (InstanceState.mk "t1" Status.Running true true true true).hasWorktree = true ∧
    ((InstanceState.mk "t1" Status.Running true true true true).Kill
      (KillEnv.mk (some "stop boom") (some "close boom") none)).2 =
      [KillStep.stopDev, KillStep.closeTmux, KillStep.cleanupWorktree] ∧
    KillStep.cleanupWorktree ∈
      ((InstanceState.mk "t1" Status.Running true true true true).Kill
        (KillEnv.mk (some "stop boom") (some "close boom") none)).2 ∧
    ∃ msg,
      ((InstanceState.mk "t1" Status.Running true true true true).Kill
        (KillEnv.mk (some "stop boom") (some "close boom") none)).1 = some msg ∧
      occursIn "stop boom" msg ∧ occursIn "close boom" msg := by
  have h := (kill_spec (InstanceState.mk "t1" Status.Running true true true true)
    (KillEnv.mk (some "stop boom") (some "close boom") none)).2 rfl
  obtain ⟨msg, hm, ho1, ho2⟩ := h.2.2.2 rfl rfl "stop boom" "close boom" rfl rfl
  exact ⟨rfl, rfl, rfl, rfl, h.2.1 rfl rfl rfl, h.2.2.1 rfl, msg, hm, ho1, ho2⟩

/-- C6: `Resume` on a started, paused instance whose branch is checked out
elsewhere fails with an error and leaves the instance unchanged: the state
is untouched (status still `Paused`) and no worktree or session mutation
is attempted. -/
theorem resume_checkedOut_spec (i : InstanceState) (env : ResumeEnv)
    (h1 : i.started = true) (h2 : i.status = Status.Paused)
    (h3 : env.branchCheckedOut = Except.ok true) :
    (i.Resume env).state = i ∧
    (i.Resume env).state.status = Status.Paused ∧
    (i.Resume env).err =
      some "cannot resume: branch is checked out, please switch to a different branch" ∧
    (i.Resume env).steps = [] := by
  simp [InstanceState.Resume, h1, h2, h3]

theorem resume_checkedOut_witness :
    (InstanceState.mk "t1" Status.Paused true false true true).started = true ∧
    (InstanceState.mk "t1" Status.Paused true false true true).status = Status.Paused ∧
    (ResumeEnv.mk (Except.ok true) StatResult.present none true none none none).branchCheckedOut
      = Except.ok true ∧
    ((InstanceState.mk "t1" Status.Paused true false true true).Resume
      (ResumeEnv.mk (Except.ok true) StatResult.present none true none none none)).state
      = InstanceState.mk "t1" Status.Paused true false true true ∧
    ((InstanceState.mk "t1" Status.Paused true false true true).Resume
      (ResumeEnv.mk (Except.ok true) StatResult.present none true none none none)).err
      = some "cannot resume: branch is checked out, please switch to a different branch" ∧
    ((InstanceState.mk "t1" Status.Paused true false true true).Resume
      (ResumeEnv.mk (Except.ok true) StatResult.present none true none none none)).steps
      = [] := by
  have h := resume_checkedOut_spec
    (InstanceState.mk "t1" Status.Paused true false true true)
    (ResumeEnv.mk (Except.ok true) StatResult.present none true none none none)
    rfl rfl rfl
  exact ⟨rfl, rfl, rfl, h.1, h.2.2.1, h.2.2.2⟩

/-- C7: `Pause` on a started, non-paused instance creates exactly one commit
when the worktree is dirty (and the commit succeeds), whose message
contains the instance title and the timestamp; it creates zero commits
when the worktree is clean. -/
theorem pause_commit_spec (i : InstanceState) (env : PauseEnv)
    (h1 : i.started = true) (h2 : i.status ≠ Status.Paused) :
    (env.isDirty = Except.ok true → env.commit = none →
      ∃ m, (i.Pause env).commits = [m] ∧
        occursIn i.title m ∧ occursIn env.now m) ∧
    (env.isDirty = Except.ok false → (i.Pause env).commits = []) := by
  constructor
  · intro hd hc
    refine ⟨"[claudesquad] update from '" ++ i.title ++ "' on " ++ env.now
      ++ " (paused)", ?_, ?_, ?_⟩
    · rcases hdet : env.detach with _ | e <;>
        simp [InstanceState.Pause, pauseAfterCommit, h1, h2, hd, hc, hdet,
          combineErrors]
    · exact occursIn_append_right (occursIn_append_right
        (occursIn_append_right (occursIn_suffix _ _) _) _) _
    · exact occursIn_append_right (occursIn_suffix _ _) _
  · intro hd
    rcases hdet : env.detach with _ | e <;>
      simp [InstanceState.Pause, pauseAfterCommit, h1, h2, hd, hdet,
        combineErrors]

theorem pause_commit_witness :
    (InstanceState.mk "t1" Status.Running true false true true).started = true ∧
    (InstanceState.mk "t1" Status.Running true false true true).status ≠ Status.Paused ∧
    (PauseEnv.mk (Except.ok true) none none "15:04").isDirty = Except.ok true ∧
    (PauseEnv.mk (Except.ok true) none none "15:04").commit = none ∧
    ∃ m,
      ((InstanceState.mk "t1" Status.Running true false true true).Pause
        (PauseEnv.mk (Except.ok true) none none "15:04")).commits = [m] ∧
      occursIn "t1" m ∧ occursIn "15:04" m := by
  have h := (pause_commit_spec
    (InstanceState.mk "t1" Status.Running true false true true)
    (PauseEnv.mk (Except.ok true) none none "15:04")
    rfl (by decide)).1 rfl rfl
  exact ⟨rfl, by decide, rfl, rfl, h⟩

/-- C3 counterexample: a started, running instance with a clean worktree
whose detach fails: `Pause` returns the detach failure as its error and
does not set the status to `Paused` (it stays `Running`), refuting the
claim that the transition still completes with the failure only logged. -/
theorem pause_detach_cex :
    ((InstanceState.mk "t1" Status.Running true false true true).Pause
      (PauseEnv.mk (Except.ok false) none (some "detach boom") "now")).state.status
      = Status.Running ∧
    ((InstanceState.mk "t1" Status.Running true false true true).Pause
      (PauseEnv.mk (Except.ok false) none (some "detach boom") "now")).state.status
      ≠ Status.Paused ∧
    ((InstanceState.mk "t1" Status.Running true false true true).Pause
      (PauseEnv.mk (Except.ok false) none (some "detach boom") "now")).err
      = some "failed to detach tmux session: detach boom" := by
  refine ⟨rfl, by decide, rfl⟩

/-- C3 (amended): on a started, non-paused instance, whatever the
dirty-check and commit outcomes, a detach failure leaves the instance
state unchanged and `Pause` returns an error, one containing the detach
failure whenever the detach step ran; the detach step runs in every case
except the dirty-worktree commit-failure early return; and the transition
to `Paused` occurs exactly when no step failed (returned error and missed
transition coincide). -/
theorem pause_detach_amended (i : InstanceState) (env : PauseEnv)
    (h1 : i.started = true) (h2 : i.status ≠ Status.Paused) :
    (∀ e, env.detach = some e →
      (i.Pause env).state = i ∧
      ∃ msg, (i.Pause env).err = some msg ∧
        ((i.Pause env).detachAttempted = true → occursIn e msg)) ∧
    ((env.isDirty = Except.ok false ∨
        (∃ b, env.isDirty = Except.error b) ∨
        (env.isDirty = Except.ok true ∧ env.commit = none)) →
      (i.Pause env).detachAttempted = true) ∧
    ((i.Pause env).state.status = Status.Paused ↔ (i.Pause env).err = none) := by
  refine ⟨?_, ?_, ?_⟩
  · intro e he
    rcases hd : env.isDirty with b | bv
    · have hred : i.Pause env =
          { state := i,
            err := combineErrors ["failed to check if worktree is dirty: " ++ b,
              "failed to detach tmux session: " ++ e],
            commits := [], detachAttempted := true } := by
        simp [InstanceState.Pause, pauseAfterCommit, h1, h2, hd, he,
          combineErrors]
      obtain ⟨msg, hm, _, hmem⟩ := combineErrors_two
        ["failed to check if worktree is dirty: " ++ b,
          "failed to detach tmux session: " ++ e] (by simp)
      rw [hred]
      exact ⟨rfl, msg, hm, fun _ => occursIn_right_component
        (hmem ("failed to detach tmux session: " ++ e) (by simp))⟩
    · cases bv
      · have hred : i.Pause env =
            { state := i, err := some ("failed to detach tmux session: " ++ e),
              commits := [], detachAttempted := true } := by
          simp [InstanceState.Pause, pauseAfterCommit, h1, h2, hd, he,
            combineErrors]
        rw [hred]
        exact ⟨rfl, _, rfl, fun _ => occursIn_suffix _ _⟩
      · rcases hc : env.commit with _ | ce
        · have hred : i.Pause env =
              { state := i, err := some ("failed to detach tmux session: " ++ e),
                commits := ["[claudesquad] update from '" ++ i.title ++ "' on "
                  ++ env.now ++ " (paused)"],
                detachAttempted := true } := by
            simp [InstanceState.Pause, pauseAfterCommit, h1, h2, hd, hc, he,
              combineErrors]
          rw [hred]
          exact ⟨rfl, _, rfl, fun _ => occursIn_suffix _ _⟩
        · have hred : i.Pause env =
              { state := i, err := some ("failed to commit changes: " ++ ce),
                commits := [], detachAttempted := false } := by
            simp [InstanceState.Pause, h1, h2, hd, hc, combineErrors]
          rw [hred]
          exact ⟨rfl, _, rfl, fun hda => nomatch hda⟩
  · rintro (hd | ⟨b, hd⟩ | ⟨hd, hc⟩)
    · rcases hdet : env.detach with _ | e <;>
        simp [InstanceState.Pause, pauseAfterCommit, h1, h2, hd, hdet,
          combineErrors]
    · rcases hdet : env.detach with _ | e <;>
        simp [InstanceState.Pause, pauseAfterCommit, h1, h2, hd, hdet,
          combineErrors]
    · rcases hdet : env.detach with _ | e <;>
        simp [InstanceState.Pause, pauseAfterCommit, h1, h2, hd, hc, hdet,
          combineErrors]
  · rcases hd : env.isDirty with b | bv
    · rcases hdet : env.detach with _ | e <;>
        simp [InstanceState.Pause, pauseAfterCommit, h1, h2, hd, hdet,
          combineErrors, h2]
    · cases bv
      · rcases hdet : env.detach with _ | e <;>
          simp [InstanceState.Pause, pauseAfterCommit, h1, h2, hd, hdet,
            combineErrors, h2]
      · rcases hc : env.commit with _ | ce
        · rcases hdet : env.detach with _ | e <;>
            simp [InstanceState.Pause, pauseAfterCommit, h1, h2, hd, hc, hdet,
              combineErrors, h2]
        · simp [InstanceState.Pause, h1, h2, hd, hc, combineErrors, h2]

theorem pause_detach_amended_witness :
    (InstanceState.mk "t1" Status.Running true false true true).started = true ∧
    (InstanceState.mk "t1" Status.Running true false true true).status ≠ Status.Paused ∧
    (PauseEnv.mk (Except.ok true) none (some "detach boom") "now").detach
      = some "detach boom" ∧
    (PauseEnv.mk (Except.ok true) none (some "detach boom") "now").isDirty
      = Except.ok true ∧
    (PauseEnv.mk (Except.ok true) none (some "detach boom") "now").commit = none ∧
    ((InstanceState.mk "t1" Status.Running true false true true).Pause
      (PauseEnv.mk (Except.ok true) none (some "detach boom") "now")).detachAttempted
      = true ∧
    ((InstanceState.mk "t1" Status.Running true false true true).Pause
      (PauseEnv.mk (Except.ok true) none (some "detach boom") "now")).state
      = InstanceState.mk "t1" Status.Running true false true true ∧
    (∃ msg,
      ((InstanceState.mk "t1" Status.Running true false true true).Pause
        (PauseEnv.mk (Except.ok true) none (some "detach boom") "now")).err
        = some msg ∧ occursIn "detach boom" msg) ∧
    ¬((InstanceState.mk "t1" Status.Running true false true true).Pause
      (PauseEnv.mk (Except.ok true) none (some "detach boom") "now")).state.status
      = Status.Paused := by
  have h := pause_detach_amended
    (InstanceState.mk "t1" Status.Running true false true true)
    (PauseEnv.mk (Except.ok true) none (some "detach boom") "now")
    rfl (by decide)
  have hatt := h.2.1 (Or.inr (Or.inr ⟨rfl, rfl⟩))
  obtain ⟨hstate, msg, herr, himp⟩ := h.1 "detach boom" rfl
  refine ⟨rfl, by decide, rfl, rfl, rfl, hatt, hstate, ⟨msg, herr, himp hatt⟩, ?_⟩
  intro hp
  have hnone := h.2.2.mp hp
  rw [herr] at hnone
  cases hnone

/-- C4 counterexample: `DevServer.Start` on a server whose status is
`Building` (dev command configured, no build command) is not rejected: it
returns no error, proceeds to launch the process, and changes the status
to `Running` — refuting the claim that a `Building` status yields an
"already running" error with no spawn and unchanged status. -/
theorem devStart_building_cex :
    ((DevServerState.mk DevServerStatus.DevServerBuilding "" "npm run dev"
        false []).Start (DevStartEnv.mk "" none "12:00:00" none)).err = none ∧
    ((DevServerState.mk DevServerStatus.DevServerBuilding "" "npm run dev"
        false []).Start (DevStartEnv.mk "" none "12:00:00" none)).spawned = true ∧
    ((DevServerState.mk DevServerStatus.DevServerBuilding "" "npm run dev"
        false []).Start (DevStartEnv.mk "" none "12:00:00" none)).state.status
      = DevServerStatus.DevServerRunning :=
  ⟨rfl, rfl, rfl⟩

/-- C4 (amended): `DevServer.Start` while the status is `Running` or
`Starting` returns an "already running" error, spawns nothing, and leaves
the whole state unchanged; a `Building` status does not trigger this
rejection (see the counterexample). -/
theorem devStart_reject_amended (d : DevServerState) (env : DevStartEnv)
    (h : d.status = DevServerStatus.DevServerRunning ∨
      d.status = DevServerStatus.DevServerStarting) :
    (d.Start env).err = some "dev server is already running" ∧
    (d.Start env).spawned = false ∧
    (d.Start env).state = d := by
  have hr : d.IsRunning = true := by
    rcases h with h | h <;> simp [DevServerState.IsRunning, h]
  simp [DevServerState.Start, hr]

theorem devStart_reject_amended_witness :
    ((DevServerState.mk DevServerStatus.DevServerRunning "make" "npm run dev"
        true []).status = DevServerStatus.DevServerRunning ∨
      (DevServerState.mk DevServerStatus.DevServerRunning "make" "npm run dev"
        true []).status = DevServerStatus.DevServerStarting) ∧
    ((DevServerState.mk DevServerStatus.DevServerRunning "make" "npm run dev"
        true []).Start (DevStartEnv.mk "" none "12:00:00" none)).err
      = some "dev server is already running" ∧
    ((DevServerState.mk DevServerStatus.DevServerRunning "make" "npm run dev"
        true []).Start (DevStartEnv.mk "" none "12:00:00" none)).spawned = false ∧
    ((DevServerState.mk DevServerStatus.DevServerRunning "make" "npm run dev"
        true []).Start (DevStartEnv.mk "" none "12:00:00" none)).state
      = DevServerState.mk DevServerStatus.DevServerRunning "make" "npm run dev"
        true [] := by
  have h := devStart_reject_amended
    (DevServerState.mk DevServerStatus.DevServerRunning "make" "npm run dev" true [])
    (DevStartEnv.mk "" none "12:00:00" none) (Or.inl rfl)
  exact ⟨Or.inl rfl, h⟩

theorem nextSleep_memS {s : Nat} (h : s ∈ ([5, 10, 20, 40, 80] : List Nat)) :
    nextSleep s ∈ ([5, 10, 20, 40, 80] : List Nat) := by
  fin_cases h <;> decide

theorem memS_bounds {s : Nat} (h : s ∈ ([5, 10, 20, 40, 80] : List Nat)) :
    5 ≤ s ∧ s ≤ 80 := by
  fin_cases h <;> omega

theorem waitForSession_inv (sess : Nat → Bool) :
    ∀ (idx elapsed sleep : Nat) (hs : 0 < sleep),
      sleep ∈ ([5, 10, 20, 40, 80] : List Nat) →
      backoffInv sess elapsed sleep (waitForSession sess idx elapsed sleep hs) := by
  refine waitForSession.induct sess
    (fun idx elapsed sleep hs =>
      sleep ∈ ([5, 10, 20, 40, 80] : List Nat) →
        backoffInv sess elapsed sleep (waitForSession sess idx elapsed sleep hs))
    ?_ ?_ ?_
  · intro idx elapsed sleep hs hsess _hmem
    rw [waitForSession, if_pos hsess]
    refine ⟨rfl, Or.inl rfl, by simp, by simp, Or.inr rfl, fun hall => ?_⟩
    rw [hall idx] at hsess
    cases hsess
  · intro idx elapsed sleep hs hsess hel _hmem
    rw [waitForSession, if_neg hsess, if_pos hel]
    exact ⟨rfl, Or.inl rfl, by simp, by simp, Or.inr rfl,
      fun _ => ⟨rfl, by simpa using hel⟩⟩
  · intro idx elapsed sleep hs hsess hel ih hmem
    have ih2 := ih (nextSleep_memS hmem)
    obtain ⟨h1, h2, h3, h4, h5, h6⟩ := ih2
    have hb := memS_bounds hmem
    rw [waitForSession, if_neg hsess, if_neg hel]
    refine ⟨h1, Or.inr rfl, ?_, ?_, ?_, ?_⟩
    · intro d hd
      rcases List.mem_cons.mp hd with rfl | hd
      · exact hmem
      · exact h3 _ hd
    · refine List.chain'_cons'.mpr ⟨?_, h4⟩
      intro b hb2
      rcases h2 with h2 | h2
      · simp [h2] at hb2
      · rw [h2] at hb2
        simp only [Option.mem_def, Option.some.injEq] at hb2
        subst hb2
        simp [nextSleep]
    · left
      show elapsed + (sleep :: _).sum ≤ 2079
      rw [List.sum_cons]
      rcases h5 with h5 | h5
      · omega
      · rw [h5]
        simp only [List.sum_nil]
        omega
    · intro hall
      obtain ⟨ht, hsum⟩ := h6 hall
      refine ⟨ht, ?_⟩
      show 2000 ≤ elapsed + (sleep :: _).sum
      rw [List.sum_cons]
      omega

/-- C9 counterexample: with a session that becomes observable at the sixth
existence check, the wait loop sleeps 5, 10, 20, 40 and then 80
milliseconds — the delay doubles past the 50ms threshold and reaches
80ms, refuting the claim that the delay never exceeds a 50ms ceiling. -/
theorem backoff_ceiling_cex :
    (startDevServerWait (fun i => decide (5 ≤ i))).delays = [5, 10, 20, 40, 80] ∧
    ∃ d ∈ (startDevServerWait (fun i => decide (5 ≤ i))).delays, 50 < d := by
  have h : (startDevServerWait (fun i => decide (5 ≤ i))).delays
      = [5, 10, 20, 40, 80] := by
    simp [startDevServerWait, waitForSession, nextSleep]
  exact ⟨h, ⟨80, by rw [h]; simp, by omega⟩⟩

/-- C9 (amended): the wait between existence checks starts at 5ms and
doubles while below 50ms, so it follows 5, 10, 20, 40 and then caps at
80ms (not 50ms); the whole wait is bounded by the 2s hard timeout (total
sleeping at most 2079ms); and when the session never becomes observable
the loop reports the timeout — reached only at 2000ms of sleeping — and
the process handle is torn down (it is closed on every exit path). -/
theorem backoff_amended (sess : Nat → Bool) :
    (startDevServerWait sess).ptmxClosed = true ∧
    ((startDevServerWait sess).delays = [] ∨
      (startDevServerWait sess).delays.head? = some 5) ∧
    (∀ d ∈ (startDevServerWait sess).delays, d ∈ ([5, 10, 20, 40, 80] : List Nat)) ∧
    List.Chain' (fun a b => b = if a < 50 then a * 2 else a)
      (startDevServerWait sess).delays ∧
    (startDevServerWait sess).delays.sum ≤ 2079 ∧
    ((∀ k, sess k = false) →
      (startDevServerWait sess).timedOut = true ∧
      2000 ≤ (startDevServerWait sess).delays.sum) := by
  obtain ⟨h1, h2, h3, h4, h5, h6⟩ :=
    waitForSession_inv sess 0 0 5 (Nat.succ_pos 4) (by decide)
  have he : startDevServerWait sess = waitForSession sess 0 0 5 (Nat.succ_pos 4) :=
    rfl
  rw [he]
  refine ⟨h1, h2, h3, h4, ?_, fun hall => ?_⟩
  · rcases h5 with h5 | h5
    · omega
    · rw [h5]; simp
  · obtain ⟨ht, hsum⟩ := h6 hall
    exact ⟨ht, by omega⟩

theorem backoff_amended_witness :
    (∀ k, (fun _ : Nat => false) k = false) ∧
    (startDevServerWait (fun _ : Nat => false)).ptmxClosed = true ∧
    (startDevServerWait (fun _ : Nat => false)).timedOut = true ∧
    2000 ≤ (startDevServerWait (fun _ : Nat => false)).delays.sum := by
  have h := backoff_amended (fun _ : Nat => false)
  have h6 := h.2.2.2.2.2 (fun _ => rfl)
  exact ⟨fun _ => rfl, h.1, h6.1, h6.2⟩

end ZSquad
